import Mathlib

/-!
Verification of the hydrogram filter engine (`hydrogram/filters.py`)
against its natural-language specification.

The Python code is shallowly embedded: Python strings become `List Char`,
optional/nullable attributes become `Option`, Python truthiness is modelled
by the `PyRet` value type together with `pyTruthy`, and code that can raise
returns `Except String`. Each definition below is translated from the
source file; doc comments cite the Python function it embeds.
-/

set_option linter.unusedVariables false

/-- Model of the Python values a hydrogram filter evaluation can return:
`None`, a strict `bool`, or a string (used because Python `and`/`or`
chains pass raw operand values through instead of coercing to `bool`). -/
inductive PyRet where
  | pyNone
  | pyBool (b : Bool)
  | pyStr (s : List Char)
deriving DecidableEq, Repr

/-- Python truthiness for the modelled values: `None` is falsy, a `bool` is
itself, a string is truthy when nonempty. -/
def pyTruthy : PyRet → Bool
  | .pyNone => false
  | .pyBool b => b
  | .pyStr s => !s.isEmpty

/-- Python `x or y`: returns `x` when `x` is truthy, otherwise `y`. -/
def pyOr (x y : PyRet) : PyRet := if pyTruthy x then x else y

/-- Python `x and y`: returns `x` when `x` is falsy, otherwise `y`. -/
def pyAnd (x y : PyRet) : PyRet := if pyTruthy x then y else x

/-! ## Boolean combinators (`InvertFilter`, `AndFilter`, `OrFilter`)

A leaf predicate is an evaluation function over an abstract update-state
`σ` (the update object together with its mutable annotation fields),
tagged with an identifier so that an evaluation log records exactly which
predicates' evaluation functions were invoked. -/

/-- A leaf predicate: an identifier plus an evaluation function that may
mutate the update state and returns a Python value (truthy/falsy). -/
structure PredF (σ : Type) where
  pid : Nat
  run : σ → PyRet × σ

/-- A filter tree: leaf predicates composed with the `InvertFilter`,
`AndFilter` and `OrFilter` combinator classes of `filters.py`. -/
inductive FTree (σ : Type) where
  | atom (p : PredF σ)
  | invert (f : FTree σ)
  | andF (l r : FTree σ)
  | orF (l r : FTree σ)

/-- Result of evaluating a filter tree: the returned Python value, the
final update state, and the ordered log of leaf-predicate identifiers
whose evaluation functions were invoked. -/
structure EvalOut (σ : Type) where
  res : PyRet
  st : σ
  log : List Nat
deriving Repr

/-- Evaluation of a filter tree, embedding `InvertFilter.__call__`,
`AndFilter.__call__` and `OrFilter.__call__`:
`Invert` returns `not x` (a strict bool); `And` evaluates the base, returns
`False` immediately when it is falsy, otherwise evaluates the other operand
and returns `x and y`; `Or` evaluates the base, returns `True` immediately
when it is truthy, otherwise evaluates the other operand and returns
`x or y`. The await/executor dispatch of the source resolves each operand
fully before the next step, which the sequential state threading models. -/
def evalF {σ : Type} : FTree σ → σ → EvalOut σ
  | .atom p, s =>
    let r := p.run s
    ⟨r.1, r.2, [p.pid]⟩
  | .invert f, s =>
    let o := evalF f s
    ⟨.pyBool (!pyTruthy o.res), o.st, o.log⟩
  | .andF l r, s =>
    let o1 := evalF l s
    if pyTruthy o1.res = false then ⟨.pyBool false, o1.st, o1.log⟩
    else
      let o2 := evalF r o1.st
      ⟨pyAnd o1.res o2.res, o2.st, o1.log ++ o2.log⟩
  | .orF l r, s =>
    let o1 := evalF l s
    if pyTruthy o1.res = true then ⟨.pyBool true, o1.st, o1.log⟩
    else
      let o2 := evalF r o1.st
      ⟨pyOr o1.res o2.res, o2.st, o1.log ++ o2.log⟩

/-- C3: for every pair of predicates and every input state, `And(P, Q)`
with a falsy `P` returns `False` with exactly `P`'s state change and
invocation log (so `Q`'s evaluation function is never invoked and writes
nothing), `Or(P, Q)` with a truthy `P` returns `True` likewise, and in all
cases the left operand's invocation log is a prefix of the whole tree's
log, i.e. the left operand is evaluated and fully resolved first. -/
theorem combinator_short_circuit {σ : Type} (P Q : FTree σ) (s : σ) :
    (pyTruthy (evalF P s).res = false →
      evalF (FTree.andF P Q) s =
        ⟨.pyBool false, (evalF P s).st, (evalF P s).log⟩) ∧
    (pyTruthy (evalF P s).res = true →
      evalF (FTree.orF P Q) s =
        ⟨.pyBool true, (evalF P s).st, (evalF P s).log⟩) ∧
    (∃ t, (evalF (FTree.andF P Q) s).log = (evalF P s).log ++ t) ∧
    (∃ t, (evalF (FTree.orF P Q) s).log = (evalF P s).log ++ t) := by
  refine ⟨fun h => ?_, fun h => ?_, ?_, ?_⟩
  · simp [evalF, h]
  · simp [evalF, h]
  · by_cases h : pyTruthy (evalF P s).res = false
    · exact ⟨[], by simp [evalF, h]⟩
    · exact ⟨(evalF Q (evalF P s).st).log, by simp [evalF, h]⟩
  · by_cases h : pyTruthy (evalF P s).res = true
    · exact ⟨[], by simp [evalF, h]⟩
    · exact ⟨(evalF Q (evalF P s).st).log, by simp [evalF, h]⟩

/-- Witness for `combinator_short_circuit` at a concrete pair of
predicates over `Nat` states: the falsy left predicate 0 short-circuits
the And, so predicate 1 is not invoked and its state write is absent. -/
theorem combinator_short_circuit_inst :
    evalF (FTree.andF (FTree.atom ⟨0, fun s => (.pyBool false, s + 1)⟩)
        (FTree.atom ⟨1, fun s => (.pyBool true, s + 100)⟩)) 0 =
      ⟨.pyBool false, 1, [0]⟩ :=
  (combinator_short_circuit
    (FTree.atom ⟨0, fun s => (.pyBool false, s + 1)⟩)
    (FTree.atom ⟨1, fun s => (.pyBool true, s + 100)⟩) 0).1 rfl

/-- C4: `InvertFilter` evaluates the wrapped predicate and returns the
logical negation of its boolean (truthiness) result, on every input on
which the wrapped predicate's evaluation terminates normally (evaluation
in this model is total, i.e. restricted to non-raising predicates). -/
theorem invert_negates {σ : Type} (P : FTree σ) (s : σ) :
    evalF (FTree.invert P) s =
      ⟨.pyBool (!pyTruthy (evalF P s).res), (evalF P s).st, (evalF P s).log⟩ := by
  simp [evalF]

/-! ## Membership filters (`user`, `chat`)

The classes `user(Filter, set)` and `chat(Filter, set)` are a predicate
and a mutable set of identifiers at once. Identifiers are ints or
strings. -/

/-- A user/chat identifier: a numeric ID or a string username. -/
inductive PyIdent where
  | idInt (n : Int)
  | idStr (s : List Char)
deriving DecidableEq, Repr

/-- Python `s.lower()` on the modelled ASCII strings. -/
def pyLowerL (s : List Char) : List Char := s.map Char.toLower

/-- Python `s.strip("@")`: removes every leading and trailing `@`. -/
def pyStripAt (s : List Char) : List Char :=
  ((s.dropWhile (fun c => c = '@')).reverse.dropWhile (fun c => c = '@')).reverse

/-- Identifier normalization from `user.__init__` / `chat.__init__`:
`"me" if u in {"me", "self"} else u.lower().strip("@") if isinstance(u, str) else u`. -/
def normalizeIdent : PyIdent → PyIdent
  | .idInt n => .idInt n
  | .idStr s =>
    if s = "me".data ∨ s = "self".data then .idStr "me".data
    else .idStr (pyStripAt (pyLowerL s))

/-- Construction of the membership container (`user.__init__` and
`chat.__init__` share this shape): every supplied identifier is
normalized; the container is modelled as the list of stored elements
(Python's `set` differs only by deduplication, which does not affect
membership). -/
def userInit (users : List PyIdent) : List PyIdent := users.map normalizeIdent

/-- Python's inherited `set.add` on the membership container: the `user`
and `chat` classes override no set-mutation method, so an element added
after construction is stored exactly as given, with no normalization. -/
def usersAdd (s : List PyIdent) (x : PyIdent) : List PyIdent :=
  if x ∈ s then s else s ++ [x]

/-- A sender (`message.from_user`): numeric ID, optional username, and
the is-self flag. -/
structure PyUser where
  uid : Int
  username : Option (List Char)
  isSelf : Bool
deriving DecidableEq, Repr

/-- A chat (`message.chat`): numeric ID and optional username. -/
structure PyChat where
  cid : Int
  username : Option (List Char)
deriving DecidableEq, Repr

/-- A message as read by the membership filters: optional sender,
optional chat, and the outgoing flag. -/
structure UMessage where
  fromUser : Option PyUser
  chat : Option PyChat
  outgoing : Bool
deriving DecidableEq, Repr

/-- Truthiness of an optional string attribute (`None` and `""` falsy),
yielding the Python value the attribute access produces. -/
def strAttr (o : Option (List Char)) : PyRet :=
  match o with
  | none => .pyNone
  | some s => .pyStr s

/-- Evaluation of the `user` filter (`user.__call__`):
`return message.from_user and (message.from_user.id in self or
(message.from_user.username and message.from_user.username.lower() in self)
or ("me" in self and message.from_user.is_self))`. The Python `and`/`or`
chains return raw operand values, modelled with `pyAnd`/`pyOr`. -/
def userCall (S : List PyIdent) (m : UMessage) : PyRet :=
  match m.fromUser with
  | none => .pyNone
  | some u =>
    pyOr (.pyBool (decide (PyIdent.idInt u.uid ∈ S)))
      (pyOr
        (pyAnd (strAttr u.username)
          (.pyBool (decide (∃ un, u.username = some un ∧ PyIdent.idStr (pyLowerL un) ∈ S))))
        (pyAnd (.pyBool (decide (PyIdent.idStr "me".data ∈ S))) (.pyBool u.isSelf)))

/-- Evaluation of the `chat` filter (`chat.__call__`):
`return message.chat and (message.chat.id in self or
(message.chat.username and message.chat.username.lower() in self) or
("me" in self and message.from_user and message.from_user.is_self and
not message.outgoing))`. When `"me" in self` holds but `message.from_user`
is `None`, the inner `and` chain yields `None` itself. -/
def chatCall (S : List PyIdent) (m : UMessage) : PyRet :=
  match m.chat with
  | none => .pyNone
  | some c =>
    pyOr (.pyBool (decide (PyIdent.idInt c.cid ∈ S)))
      (pyOr
        (pyAnd (strAttr c.username)
          (.pyBool (decide (∃ un, c.username = some un ∧ PyIdent.idStr (pyLowerL un) ∈ S))))
        (pyAnd (.pyBool (decide (PyIdent.idStr "me".data ∈ S)))
          (match m.fromUser with
           | none => .pyNone
           | some u => .pyBool (u.isSelf && !m.outgoing))))

/-- Helper: the `or`-chain shape of `user.__call__`/`chat.__call__`
evaluates to a strict bool whenever its last disjunct is a strict bool. -/
theorem chain_isBool (a : Bool) (o : Option (List Char)) (e : Bool) (t : PyRet)
    (ht : ∃ b, t = PyRet.pyBool b) :
    ∃ b, pyOr (.pyBool a) (pyOr (pyAnd (strAttr o) (.pyBool e)) t) = PyRet.pyBool b := by
  obtain ⟨bb, rfl⟩ := ht
  cases o with
  | none =>
    cases a with
    | true => exact ⟨true, rfl⟩
    | false => exact ⟨bb, rfl⟩
  | some s =>
    cases hs : s.isEmpty with
    | true =>
      cases a with
      | true => exact ⟨true, rfl⟩
      | false => exact ⟨bb, by simp [pyOr, pyAnd, strAttr, pyTruthy, hs]⟩
    | false =>
      cases a with
      | true => exact ⟨true, rfl⟩
      | false =>
        cases e with
        | true => exact ⟨true, by simp [pyOr, pyAnd, strAttr, pyTruthy, hs]⟩
        | false => exact ⟨bb, by simp [pyOr, pyAnd, strAttr, pyTruthy, hs]⟩

/-- Counterexample to C5 as stated: the claim requires normalization on
every insertion "including any identifier later added through a standard
set operation", but the inherited `set.add` stores `"@Bob"` unchanged:
the stored element is `"@Bob"`, not the normalized `"bob"`. -/
theorem membership_add_unnormalized_cex :
    PyIdent.idStr "@Bob".data ∈ usersAdd (userInit []) (PyIdent.idStr "@Bob".data) ∧
    PyIdent.idStr "bob".data ∉ usersAdd (userInit []) (PyIdent.idStr "@Bob".data) := by
  decide

/-- C5 amended: identifier normalization is applied to every element
supplied at construction — `user(["@Alice", 123, "me"])` holds exactly
`{"alice", 123, "me"}` — but an identifier later added through a standard
(inherited) set operation is stored exactly as given, unnormalized. -/
theorem membership_normalization_scope :
    (∀ (us : List PyIdent) (x : PyIdent),
      x ∈ userInit us ↔ ∃ u ∈ us, normalizeIdent u = x) ∧
    (userInit [PyIdent.idStr "@Alice".data, PyIdent.idInt 123, PyIdent.idStr "me".data] =
      [PyIdent.idStr "alice".data, PyIdent.idInt 123, PyIdent.idStr "me".data]) ∧
    (∀ (s : List PyIdent) (x : PyIdent), x ∉ s → usersAdd s x = s ++ [x]) ∧
    (∀ (s : List PyIdent) (x : PyIdent), x ∈ usersAdd s x) := by
  refine ⟨?_, by decide, ?_, ?_⟩
  · intro us x
    simp [userInit, List.mem_map]
  · intro s x h
    simp [usersAdd, h]
  · intro s x
    by_cases h : x ∈ s <;> simp [usersAdd, h]

/-- Witness for `membership_normalization_scope`: adding `"@Bob"` to an
empty container appends it verbatim. -/
theorem membership_normalization_scope_inst :
    usersAdd [] (PyIdent.idStr "@Bob".data) = [PyIdent.idStr "@Bob".data] :=
  membership_normalization_scope.2.2.1 [] (PyIdent.idStr "@Bob".data) (by decide)

/-- Counterexample to C6 as stated: with the sender absent,
`user.__call__` returns `message.from_user` itself — the non-boolean
falsy value `None` — not a strict boolean. -/
theorem user_absent_sender_none_cex :
    userCall [] ⟨none, none, false⟩ = PyRet.pyNone ∧
    ∀ b : Bool, userCall [] ⟨none, none, false⟩ ≠ PyRet.pyBool b := by
  decide

/-- C6 amended: the `user` filter returns a strict boolean whenever the
sender is present and `None` when it is absent; the `chat` filter returns
`None` when the chat is absent, a strict boolean when both chat and
sender are present, and either a strict boolean or `None` when the chat
is present but the sender absent (the saved-messages branch then yields
`None`). The other catalog filters wrap their result in `bool(...)`. -/
theorem filters_boolean_results :
    (∀ (S : List PyIdent) (m : UMessage) (u : PyUser), m.fromUser = some u →
      ∃ b, userCall S m = PyRet.pyBool b) ∧
    (∀ (S : List PyIdent) (m : UMessage), m.fromUser = none →
      userCall S m = PyRet.pyNone) ∧
    (∀ (S : List PyIdent) (m : UMessage), m.chat = none →
      chatCall S m = PyRet.pyNone) ∧
    (∀ (S : List PyIdent) (m : UMessage) (c : PyChat) (u : PyUser),
      m.chat = some c → m.fromUser = some u →
      ∃ b, chatCall S m = PyRet.pyBool b) ∧
    (∀ (S : List PyIdent) (m : UMessage) (c : PyChat),
      m.chat = some c → m.fromUser = none →
      (∃ b, chatCall S m = PyRet.pyBool b) ∨ chatCall S m = PyRet.pyNone) := by
  refine ⟨?_, ?_, ?_, ?_, ?_⟩
  · intro S m u h
    simp only [userCall, h]
    refine chain_isBool _ _ _ _ ?_
    cases hg : decide (PyIdent.idStr "me".data ∈ S) with
    | true => exact ⟨u.isSelf, rfl⟩
    | false => exact ⟨false, rfl⟩
  · intro S m h
    simp [userCall, h]
  · intro S m h
    simp [chatCall, h]
  · intro S m c u hc hu
    simp only [chatCall, hc, hu]
    refine chain_isBool _ _ _ _ ?_
    cases hg : decide (PyIdent.idStr "me".data ∈ S) with
    | true => exact ⟨u.isSelf && !m.outgoing, rfl⟩
    | false => exact ⟨false, rfl⟩
  · intro S m c hc hu
    simp only [chatCall, hc, hu]
    cases hg : decide (PyIdent.idStr "me".data ∈ S) with
    | false => exact Or.inl (chain_isBool _ _ _ _ ⟨false, rfl⟩)
    | true =>
      cases ha : decide (PyIdent.idInt c.cid ∈ S) with
      | true => exact Or.inl ⟨true, rfl⟩
      | false =>
        cases c.username with
        | none => exact Or.inr rfl
        | some s =>
          cases hs : s.isEmpty with
          | true => exact Or.inr (by simp [pyOr, pyAnd, strAttr, pyTruthy, hs])
          | false =>
            cases he : decide (∃ un, some s = some un ∧ PyIdent.idStr (pyLowerL un) ∈ S) with
            | true =>
              refine Or.inl ⟨true, ?_⟩
              simp [pyOr, pyAnd, strAttr, pyTruthy, hs]
            | false =>
              exact Or.inr (by simp [pyOr, pyAnd, strAttr, pyTruthy, hs])

/-- Witness for `filters_boolean_results`: a concrete message with a
present sender yields a strict boolean from the `user` filter. -/
theorem filters_boolean_results_inst :
    ∃ b, userCall [PyIdent.idInt 5] ⟨some ⟨5, none, false⟩, none, false⟩ = PyRet.pyBool b :=
  filters_boolean_results.1 [PyIdent.idInt 5] ⟨some ⟨5, none, false⟩, none, false⟩
    ⟨5, none, false⟩ rfl

/-- C10: the self-sentinel mapping applies only to the exact lowercase
strings: `"Self"`/`"SELF"` are stored as the plain token `"self"` (so the
is-self branch, gated by `"me" in self`, is never taken — the result is
independent of the sender's `is_self` flag), while any case variant of
`"me"` ends up stored as `"me"` (here via lower-casing). -/
theorem self_sentinel_case_handling :
    normalizeIdent (PyIdent.idStr "Self".data) = PyIdent.idStr "self".data ∧
    normalizeIdent (PyIdent.idStr "SELF".data) = PyIdent.idStr "self".data ∧
    normalizeIdent (PyIdent.idStr "Me".data) = PyIdent.idStr "me".data ∧
    normalizeIdent (PyIdent.idStr "ME".data) = PyIdent.idStr "me".data ∧
    (∀ (uid : Int) (un : Option (List Char)) (ch : Option PyChat) (og s1 s2 : Bool),
      userCall (userInit [PyIdent.idStr "Self".data]) ⟨some ⟨uid, un, s1⟩, ch, og⟩ =
        userCall (userInit [PyIdent.idStr "Self".data]) ⟨some ⟨uid, un, s2⟩, ch, og⟩) ∧
    (∀ (cid : Int) (cun : Option (List Char)) (uid : Int) (un : Option (List Char))
        (og s1 s2 : Bool),
      chatCall (userInit [PyIdent.idStr "Self".data]) ⟨some ⟨uid, un, s1⟩, some ⟨cid, cun⟩, og⟩ =
        chatCall (userInit [PyIdent.idStr "Self".data]) ⟨some ⟨uid, un, s2⟩, some ⟨cid, cun⟩, og⟩) := by
  have hme : decide (PyIdent.idStr "me".data ∈ userInit [PyIdent.idStr "Self".data]) = false := by
    decide
  refine ⟨by decide, by decide, by decide, by decide, ?_, ?_⟩
  · intro uid un ch og s1 s2
    simp [userCall, hme, pyAnd, pyTruthy]
  · intro cid cun uid un og s1 s2
    simp [chatCall, hme, pyAnd, pyTruthy]

/-! ## The `regex` filter

The compiled pattern is modelled abstractly as the function the code
calls: `flt.p.finditer(value)` becomes `p value`, the ordered list of all
non-overlapping matches (match objects drawn from an arbitrary type `μ`).
The update shapes the filter recognizes each carry the mutable `matches`
annotation attribute. -/

/-- An update as seen by the `regex` filter: a message (text, caption), a
callback query (data), an inline query (query), or any other shape; every
shape carries the `matches` annotation field. -/
inductive RUpdate (μ : Type) where
  | message (text caption : Option (List Char)) (mts : Option (List μ))
  | callbackQuery (data : Option (List Char)) (mts : Option (List μ))
  | inlineQuery (query : Option (List Char)) (mts : Option (List μ))
  | other
deriving DecidableEq, Repr

/-- Python truthiness of an optional string (`None` and `""` are falsy),
returned as the selected value when truthy. -/
def truthyStr (o : Option (List Char)) : Option (List Char) :=
  match o with
  | none => none
  | some s => if s.isEmpty then none else some s

/-- The value `update.text or update.caption` selects, filtered by the
`if value:` truthiness test of the source. -/
def textSelect (t c : Option (List Char)) : Option (List Char) :=
  truthyStr
    (match t with
     | some tv => if tv.isEmpty then c else some tv
     | none => c)

/-- Python `list(...) or None` applied to the match list. -/
def listOrNone {μ : Type} (l : List μ) : Option (List μ) :=
  if l.isEmpty then none else some l

/-- Truthiness of the `matches` attribute (`bool(update.matches)`). -/
def matchesTruthy {μ : Type} (m : Option (List μ)) : Bool :=
  match m with
  | none => false
  | some l => !l.isEmpty

/-- Evaluation of the `regex` filter's inner `func`: selects the text by
update shape (raising `ValueError` on any other shape), then — only when
the selected value is truthy — stores `list(flt.p.finditer(value)) or
None` into `update.matches`, and finally returns `bool(update.matches)`
of the possibly-updated update. Note there is no reset of `matches`
before the truthiness test. -/
def regexFunc {μ : Type} (p : List Char → List μ) :
    RUpdate μ → Except String (Bool × RUpdate μ)
  | .message t c m =>
    match textSelect t c with
    | some v =>
      let m2 := listOrNone (p v)
      .ok (matchesTruthy m2, .message t c m2)
    | none => .ok (matchesTruthy m, .message t c m)
  | .callbackQuery d m =>
    match truthyStr d with
    | some v =>
      let m2 := listOrNone (p v)
      .ok (matchesTruthy m2, .callbackQuery d m2)
    | none => .ok (matchesTruthy m, .callbackQuery d m)
  | .inlineQuery q m =>
    match truthyStr q with
    | some v =>
      let m2 := listOrNone (p v)
      .ok (matchesTruthy m2, .inlineQuery q m2)
    | none => .ok (matchesTruthy m, .inlineQuery q m)
  | .other => .error "ValueError"

/-- The `pattern` argument of `regex(pattern, flags)`: a raw string or an
already-compiled pattern object. -/
inductive PatternArg (μ : Type) where
  | raw (s : List Char)
  | compiled (p : List Char → List μ)

/-- Construction of the regex filter's stored pattern:
`p = pattern if isinstance(pattern, Pattern) else re.compile(pattern, flags)`.
The external `re.compile` is abstracted as the parameter `compile`. -/
def regexBuild {μ : Type} (compile : List Char → Int → (List Char → List μ)) :
    PatternArg μ → Int → (List Char → List μ)
  | .compiled p, _ => p
  | .raw s, flags => compile s flags

/-- Counterexample to C2 as stated: on a message-shaped update whose text
and caption are both absent but whose `matches` annotation still holds a
stale match, the filter performs no reset, leaves the stale annotation in
place, and returns `true` — the claim requires it to reset the
annotation, return `false` and leave `matches` null. -/
theorem regex_stale_matches_cex :
    regexFunc (μ := Nat) (fun _ => []) (.message none none (some [0])) =
      .ok (true, .message none none (some [0])) := rfl

/-- Helper: `bool(list(...) or None)` is the non-emptiness of the list. -/
theorem matchesTruthy_listOrNone {μ : Type} (l : List μ) :
    matchesTruthy (listOrNone l) = !l.isEmpty := by
  by_cases hl : l.isEmpty <;> simp [listOrNone, matchesTruthy, hl]

/-- C2 amended: the regex filter performs no reset of `update.matches`;
when the selected text is absent it leaves `matches` untouched and
returns the truthiness of the pre-existing annotation (false when that is
null); when the text is present it sets `matches` to the ordered match
list or to null when there is none, and returns true if and only if at
least one match was found. Stated for all three recognized shapes. -/
theorem regex_matches_lifecycle {μ : Type} (p : List Char → List μ)
    (t c d q mo : Option (List Char)) (m : Option (List μ)) :
    (textSelect t c = none →
      regexFunc p (.message t c m) = .ok (matchesTruthy m, .message t c m)) ∧
    (∀ v, textSelect t c = some v →
      regexFunc p (.message t c m) =
        .ok (!(p v).isEmpty, .message t c (listOrNone (p v)))) ∧
    (truthyStr d = none →
      regexFunc p (.callbackQuery d m) = .ok (matchesTruthy m, .callbackQuery d m)) ∧
    (∀ v, truthyStr d = some v →
      regexFunc p (.callbackQuery d m) =
        .ok (!(p v).isEmpty, .callbackQuery d (listOrNone (p v)))) ∧
    (truthyStr q = none →
      regexFunc p (.inlineQuery q m) = .ok (matchesTruthy m, .inlineQuery q m)) ∧
    (∀ v, truthyStr q = some v →
      regexFunc p (.inlineQuery q m) =
        .ok (!(p v).isEmpty, .inlineQuery q (listOrNone (p v)))) := by
  refine ⟨fun h => ?_, fun v h => ?_, fun h => ?_, fun v h => ?_, fun h => ?_, fun v h => ?_⟩ <;>
    simp [regexFunc, h, matchesTruthy_listOrNone]

/-- Witness for `regex_matches_lifecycle`: a message with text `"order 42"`
matched by a pattern function returning one match sets the annotation to
that singleton list and returns true; with text absent and a null stale
annotation it returns false. -/
theorem regex_matches_lifecycle_inst :
    regexFunc (μ := Nat) (fun _ => [7]) (.message (some "order 42".data) none none) =
      .ok (true, .message (some "order 42".data) none (some [7])) ∧
    regexFunc (μ := Nat) (fun _ => [7]) (.message none none none) =
      .ok (false, .message none none none) := by
  constructor
  · exact (regex_matches_lifecycle (fun _ => [7]) (some "order 42".data) none none none
      none none).2.1 "order 42".data rfl
  · exact (regex_matches_lifecycle (μ := Nat) (fun _ => [7]) none none none none
      none none).1 rfl

/-- C9: when `regex` is built from an already-compiled pattern object the
`flags` argument is ignored entirely — the stored pattern is the given
one for every flags value, so two such filters agree on every input. -/
theorem regex_precompiled_ignores_flags {μ : Type}
    (compile : List Char → Int → (List Char → List μ))
    (p : List Char → List μ) (flags1 flags2 : Int) :
    regexBuild compile (.compiled p) flags1 = p ∧
    regexBuild compile (.compiled p) flags1 = regexBuild compile (.compiled p) flags2 ∧
    ∀ u : RUpdate μ,
      regexFunc (regexBuild compile (.compiled p) flags1) u =
        regexFunc (regexBuild compile (.compiled p) flags2) u :=
  ⟨rfl, rfl, fun _ => rfl⟩

/-! ## Chat-scope filters (`private_filter`, `group_filter`, `channel_filter`)

These accept a message-shaped or callback-query-shaped update and raise
`ValueError` for any other shape. On the callback-query shape the code
reads `m.message.chat`; when the callback query's `message` attribute is
`None` (spec §6: parsed update fields are nullable/absent unless the
update genuinely carries that payload) that attribute access raises
`AttributeError`. -/

/-- The chat category enum (`enums.ChatType`). -/
inductive ChatType where
  | PRIVATE
  | BOT
  | GROUP
  | SUPERGROUP
  | CHANNEL
deriving DecidableEq, Repr

/-- A chat as read by the chat-scope filters. -/
structure CChat where
  type : ChatType
deriving DecidableEq, Repr

/-- A message as read by the chat-scope filters: a nullable chat. -/
structure CMessage where
  chat : Option CChat
deriving DecidableEq, Repr

/-- An update as seen by the chat-scope filters: a message, a callback
query (whose own `message` attribute is nullable), or any other shape. -/
inductive CUpdate where
  | message (m : CMessage)
  | callbackQuery (message : Option CMessage)
  | other
deriving DecidableEq, Repr

/-- Resolution of the chat the three chat-scope filters test, shared by
their bodies: `value = m.chat` on a message, `value = m.message.chat` on
a callback query (raising `AttributeError` when `m.message` is `None`),
and `ValueError` on any other shape. -/
def chatScopeValue : CUpdate → Except String (Option CChat)
  | .message m => .ok m.chat
  | .callbackQuery mo =>
    match mo with
    | some m => .ok m.chat
    | none => .error "AttributeError"
  | .other => .error "ValueError"

/-- `private_filter`: `bool(value and value.type in {PRIVATE, BOT})`. -/
def private_filter (u : CUpdate) : Except String Bool :=
  match chatScopeValue u with
  | .error e => .error e
  | .ok none => .ok false
  | .ok (some c) => .ok (decide (c.type = .PRIVATE ∨ c.type = .BOT))

/-- `group_filter`: `bool(value and value.type in {GROUP, SUPERGROUP})`. -/
def group_filter (u : CUpdate) : Except String Bool :=
  match chatScopeValue u with
  | .error e => .error e
  | .ok none => .ok false
  | .ok (some c) => .ok (decide (c.type = .GROUP ∨ c.type = .SUPERGROUP))

/-- `channel_filter`: `bool(value and value.type == CHANNEL)`. -/
def channel_filter (u : CUpdate) : Except String Bool :=
  match chatScopeValue u with
  | .error e => .error e
  | .ok none => .ok false
  | .ok (some c) => .ok (decide (c.type = .CHANNEL))

/-- Counterexample to C7 as stated: a callback query is a recognized
shape for the chat-scope filters, yet with its `message` field merely
missing the filter raises (`AttributeError` from `m.message.chat`)
instead of resolving to false. -/
theorem private_callback_no_message_cex :
    private_filter (.callbackQuery none) = .error "AttributeError" ∧
    ∀ b : Bool, private_filter (.callbackQuery none) ≠ .ok b := by
  constructor
  · rfl
  · intro b h
    cases h

/-- C7 amended: for an update of an unrecognized shape the chat-scope
filters and the regex filter raise an unsupported-shape `ValueError` that
propagates (never a silent false); for recognized shapes with the
relevant field null they resolve to false without raising — a message
with a null chat resolves to false, a callback query with a present
message but null chat resolves to false, and the regex filter with the
selected text absent (and no stale `matches` annotation) resolves to
false — except that a chat-scope filter applied to a callback query
whose `message` field is itself absent raises an `AttributeError`. -/
theorem shape_error_policy :
    (private_filter .other = .error "ValueError" ∧
      group_filter .other = .error "ValueError" ∧
      channel_filter .other = .error "ValueError" ∧
      regexFunc (μ := Nat) (fun _ => []) .other = .error "ValueError") ∧
    (∀ u : CUpdate, (∃ m, u = .message m) ∨ (∃ mo, u = .callbackQuery mo) →
      private_filter u ≠ .error "ValueError" ∧
      group_filter u ≠ .error "ValueError" ∧
      channel_filter u ≠ .error "ValueError") ∧
    (private_filter (.message ⟨none⟩) = .ok false ∧
      group_filter (.message ⟨none⟩) = .ok false ∧
      channel_filter (.message ⟨none⟩) = .ok false) ∧
    (private_filter (.callbackQuery (some ⟨none⟩)) = .ok false ∧
      group_filter (.callbackQuery (some ⟨none⟩)) = .ok false ∧
      channel_filter (.callbackQuery (some ⟨none⟩)) = .ok false) ∧
    (private_filter (.callbackQuery none) = .error "AttributeError" ∧
      group_filter (.callbackQuery none) = .error "AttributeError" ∧
      channel_filter (.callbackQuery none) = .error "AttributeError") ∧
    (∀ (μ : Type) (p : List Char → List μ) (t c : Option (List Char)),
      textSelect t c = none →
      regexFunc p (.message t c none) = .ok (false, .message t c none)) := by
  refine ⟨⟨rfl, rfl, rfl, rfl⟩, ?_, ⟨rfl, rfl, rfl⟩, ⟨rfl, rfl, rfl⟩, ⟨rfl, rfl, rfl⟩, ?_⟩
  · intro u hu
    rcases hu with ⟨m, rfl⟩ | ⟨mo, rfl⟩
    · cases hm : m.chat <;>
        simp [private_filter, group_filter, channel_filter, chatScopeValue, hm]
    · cases mo with
      | none => simp [private_filter, group_filter, channel_filter, chatScopeValue]
      | some m =>
        cases hm : m.chat <;>
          simp [private_filter, group_filter, channel_filter, chatScopeValue, hm]
  · intro μ p t c h
    simp [regexFunc, h, matchesTruthy]

/-- Witness for `shape_error_policy`: a message-shaped update never
produces the unsupported-shape error, and a regex evaluation on a
message with absent text and no stale annotation resolves to false. -/
theorem shape_error_policy_inst :
    (private_filter (.message ⟨some ⟨.PRIVATE⟩⟩) ≠ .error "ValueError") ∧
    regexFunc (μ := Nat) (fun _ => [0]) (.message none none none) =
      .ok (false, .message none none none) :=
  ⟨(shape_error_policy.2.1 (.message ⟨some ⟨.PRIVATE⟩⟩)
      (Or.inl ⟨⟨some ⟨.PRIVATE⟩⟩, rfl⟩)).1,
    shape_error_policy.2.2.2.2.2 Nat (fun _ => [0]) none none rfl⟩

/-! ## The `media` filter

The `Message.media` computed field itself is set by the type-parsing
layer, which is outside the shown sources. -/

/-- The media kinds `Message.media` can carry. -/
inductive MediaKind where
  | audio | document | photo | sticker | video | animation
  | voice | videoNote | contact | location | venue | poll
deriving DecidableEq, Repr

/-- A message as read by `media_filter`: presence flags for the twelve
media fields, plus the derived `media` field. -/
structure MMessage where
  audio : Bool
  document : Bool
  photo : Bool
  sticker : Bool
  video : Bool
  animation : Bool
  voice : Bool
  videoNote : Bool
  contact : Bool
  location : Bool
  venue : Bool
  poll : Bool
deriving DecidableEq, Repr

/-- Modelled from the spec: the `Message.media` computed field is set by
the excluded type-parsing layer to the kind of whichever of the twelve
documented media fields is present (*audio*, *document*, *photo*,
*sticker*, *video*, *animation*, *voice*, *video_note*, *contact*,
*location*, *venue*, *poll* — the list in `media_filter`'s docstring),
and is `None` when none of them is. -/
def mediaOf (m : MMessage) : Option MediaKind :=
  if m.audio then some .audio
  else if m.document then some .document
  else if m.photo then some .photo
  else if m.sticker then some .sticker
  else if m.video then some .video
  else if m.animation then some .animation
  else if m.voice then some .voice
  else if m.videoNote then some .videoNote
  else if m.contact then some .contact
  else if m.location then some .location
  else if m.venue then some .venue
  else if m.poll then some .poll
  else none

/-- `media_filter`: `return bool(m.media)`. -/
def media_filter (m : MMessage) : Bool := (mediaOf m).isSome

/-- C8: `media_filter` is true exactly when at least one of the twelve
documented media fields is set, and false when all twelve are absent. -/
theorem media_twelve_fields (m : MMessage) :
    media_filter m =
      (m.audio || m.document || m.photo || m.sticker || m.video || m.animation ||
       m.voice || m.videoNote || m.contact || m.location || m.venue || m.poll) := by
  rcases m with ⟨a, d, p, s, v, an, vo, vn, co, lo, ve, po⟩
  revert a d p s v an vo vn co lo ve po
  decide

/-! ## The `command` filter

`command(commands, prefixes="/", case_sensitive=False)` builds a filter
whose evaluation matches a prefix, then a command name (optionally
followed by `@` and the acting client's username, then whitespace or end
of string), strips the matched span, and tokenizes the remainder with the
scanner regex `([\"'])(.*?)(?<!\\)\1|(\S+)`. The command name is
interpolated into the match and sub patterns unescaped, so its characters
are read by the `re` engine: for a command name containing no regex
metacharacter the interpolated patterns match the name literally, and the
embedding below models exactly that domain (`isReMeta`); a name
containing metacharacters is instead interpreted as a regular expression
by the source (or raises `re.error`) and is outside this embedding. The
fixed scanner regex is embedded as direct scanning functions over
`List Char` with the semantics of the Python `re` engine on it
(alternation tried left to right, lazy `.*?`, `.` not matching a newline,
the lookbehind inspecting the single previous character, `IGNORECASE`
when the filter is not case-sensitive). -/

/-- Python `\s` on the ASCII range: the whitespace class of the scanner. -/
def isPySpace (c : Char) : Bool :=
  c == ' ' || c == '\t' || c == '\n' || c == '\r' || c == '\x0b' || c == '\x0c'

/-- Character comparison, case-insensitive (`re.IGNORECASE`) when `ci`. -/
def chEq (ci : Bool) (a b : Char) : Bool :=
  if ci then a.toLower == b.toLower else a == b

/-- Characters that are special in a Python regular expression. A command
name containing none of them is interpolated into the source's
`re.match`/`re.sub` patterns as a literal; the command-matching
definitions below embed the source for exactly such names. -/
def isReMeta (c : Char) : Bool :=
  c == '.' || c == '^' || c == '$' || c == '*' || c == '+' || c == '?' ||
  c == '\x7b' || c == '\x7d' || c == '[' || c == ']' || c == '\\' ||
  c == '|' || c == '(' || c == ')'

/-- Literal-pattern prefix match under the comparison mode `ci`. -/
def startsWithCI (ci : Bool) : List Char → List Char → Bool
  | [], _ => true
  | _ :: _, [] => false
  | p :: ps, c :: cs => chEq ci p c && startsWithCI ci ps cs

/-- The `(?:\s|$)` tail condition: end of string or a whitespace next. -/
def tailOkCI (r : List Char) : Bool :=
  match r with
  | [] => true
  | c :: _ => isPySpace c

/-- The match test `re.match(rf"^(?:{cmd}(?:@?{username})?)(?:\s|$)", s)`
for a command name free of regex metacharacters (`isReMeta`), on which
the unescaped interpolation of `cmd` is a literal pattern: the command
name at the start, then (backtracking the optional group in the engine's
order) `@` plus the username, or the username alone, or nothing, then
whitespace or end of string. A name containing metacharacters is read as
regex syntax by the source and is not modelled here. -/
def matchCmd (ci : Bool) (cmd uname s : List Char) : Bool :=
  startsWithCI ci cmd s &&
  ((startsWithCI ci ('@' :: uname) (s.drop cmd.length) &&
      tailOkCI ((s.drop cmd.length).drop (uname.length + 1))) ||
   (startsWithCI ci uname (s.drop cmd.length) &&
      tailOkCI ((s.drop cmd.length).drop uname.length)) ||
   tailOkCI (s.drop cmd.length))

/-- The span removed at a position where the command name matches, for
`re.sub(rf"{cmd}(?:@?{username})?\s?", "", s, count=1)` with a command
name free of regex metacharacters (so the interpolated `cmd` is a
literal): the command name, then greedily `@` plus username, else
username, else nothing, then at most one whitespace character. Returns
the input with the span gone. -/
def subCmdAt (ci : Bool) (cmd uname s : List Char) : List Char :=
  let rest := s.drop cmd.length
  let rest2 :=
    if startsWithCI ci ('@' :: uname) rest then rest.drop (uname.length + 1)
    else if startsWithCI ci uname rest then rest.drop uname.length
    else rest
  match rest2 with
  | [] => []
  | c :: tl => if isPySpace c then tl else c :: tl

/-- `re.sub(..., count=1)` for a metacharacter-free command name: remove
the leftmost occurrence of the (literally interpolated) command span; the
input is returned unchanged when the command name occurs nowhere. -/
def subCmd (ci : Bool) (cmd uname : List Char) : List Char → List Char
  | [] => []
  | c :: rest =>
    if startsWithCI ci cmd (c :: rest) then subCmdAt ci cmd uname (c :: rest)
    else c :: subCmd ci cmd uname rest

/-- Lazy search for the closing quote of `([\"'])(.*?)(?<!\\)\1` after an
opening quote `q`: walking with the previous character in hand, the first
position holding `q` not preceded by a backslash closes the span; a
newline (which `.` cannot match) fails the quoted branch. Returns the
span's inner text and the remainder after the closing quote. -/
def findClose (q : Char) : Char → List Char → Option (List Char × List Char)
  | _, [] => none
  | prev, c :: rest =>
    if c = q ∧ prev ≠ '\\' then some ([], rest)
    else if c = '\n' then none
    else
      match findClose q c rest with
      | some (content, rest2) => some (c :: content, rest2)
      | none => none

/-- One pass of `command_re.finditer`: at each position the engine first
tries a quoted span (when the character is a quote and a valid closing
quote exists), otherwise a maximal run of non-whitespace, otherwise (on
whitespace) advances one character. Fuelled structurally; every step
consumes at least one character, so `length + 1` fuel never runs out. -/
def scanTokensGo : Nat → List Char → List (List Char)
  | 0, _ => []
  | _ + 1, [] => []
  | fuel + 1, c :: rest =>
    if c = '"' ∨ c = '\'' then
      match findClose c c rest with
      | some (content, rest2) => content :: scanTokensGo fuel rest2
      | none =>
        ((c :: rest).takeWhile fun x => !isPySpace x) ::
          scanTokensGo fuel (rest.dropWhile fun x => !isPySpace x)
    else if isPySpace c then scanTokensGo fuel rest
    else
      ((c :: rest).takeWhile fun x => !isPySpace x) ::
        scanTokensGo fuel (rest.dropWhile fun x => !isPySpace x)

/-- The token list `command_re.finditer(without_command)` produces, each
token being `m.group(2) or m.group(3) or ""`. -/
def scanTokens (l : List Char) : List (List Char) := scanTokensGo (l.length + 1) l

/-- The escape removal `re.sub(r"\\([\"'])", r"\1", token)`: every
backslash immediately followed by a quote collapses to the quote. -/
def unescapeQuotes : List Char → List Char
  | [] => []
  | '\\' :: c :: rest =>
    if c = '"' ∨ c = '\'' then c :: unescapeQuotes rest
    else '\\' :: unescapeQuotes (c :: rest)
  | c :: rest => c :: unescapeQuotes rest

/-- A message as read by the command filter: nullable text and caption,
plus the `command` annotation attribute the filter writes. -/
structure CmdMessage where
  text : Option (List Char)
  caption : Option (List Char)
  command : Option (List (List Char))
deriving DecidableEq, Repr

/-- The bound state of a command filter: the normalized command set, the
prefix set (modelled as lists; Python set iteration order is unspecified
and the claims evaluated here use singletons), and the flag. -/
structure CommandFlt where
  commands : List (List Char)
  pfxs : List (List Char)
  case_sensitive : Bool
deriving Repr

/-- Constructor normalization of `command(...)`: commands are lower-cased
unless case-sensitive; `None` or an empty prefix collection becomes the
single empty prefix (no prefix required); `pfxs0 = none` models passing
`None`. A scalar string argument is modelled as its singleton list. -/
def commandBuild (commands : List (List Char)) (pfxs0 : Option (List (List Char)))
    (cs : Bool) : CommandFlt :=
  { commands := if cs then commands else commands.map (List.map Char.toLower)
    pfxs :=
      match pfxs0 with
      | none => [[]]
      | some [] => [[]]
      | some ps => ps
    case_sensitive := cs }

/-- The inner command loop: the first configured command matching at the
start of the prefix-stripped text wins; the annotation value is the
stored command name followed by the unescaped tokens of the remainder
after `re.sub` removes the matched span. -/
def tryCmds (ci : Bool) (uname wp : List Char) :
    List (List Char) → Option (List (List Char))
  | [] => none
  | cmd :: rest =>
    if matchCmd ci cmd uname wp then
      some (cmd :: (scanTokens (subCmd ci cmd uname wp)).map unescapeQuotes)
    else tryCmds ci uname wp rest

/-- The outer prefix loop: prefixes are matched case-sensitively with
`text.startswith`; a prefix whose commands all fail falls through to the
next prefix. -/
def tryPfxs (ci : Bool) (uname : List Char) (cmds : List (List Char)) (t : List Char) :
    List (List Char) → Option (List (List Char))
  | [] => none
  | pfx :: rest =>
    if startsWithCI false pfx t then
      match tryCmds ci uname (t.drop pfx.length) cmds with
      | some r => some r
      | none => tryPfxs ci uname cmds t rest
    else tryPfxs ci uname cmds t rest

/-- Evaluation of the command filter's inner `func`: the acting client's
username (`client.me.username or ""`) is `uname0.getD []`; the text is
`message.text or message.caption`; `message.command` is reset to `None`
before the truthiness test; on a prefix+command match the annotation is
written and the result is true, otherwise false. -/
def evalCommand (flt : CommandFlt) (uname0 : Option (List Char)) (msg : CmdMessage) :
    Bool × CmdMessage :=
  let uname := uname0.getD []
  let msg1 : CmdMessage := { msg with command := none }
  match truthyStr
      (match msg.text with
       | some tv => if tv.isEmpty then msg.caption else some tv
       | none => msg.caption) with
  | none => (false, msg1)
  | some t =>
    match tryPfxs (!flt.case_sensitive) uname flt.commands t flt.pfxs with
    | some r => (true, { msg1 with command := some r })
    | none => (false, msg1)

/-- A character always matches itself in either comparison mode. -/
theorem chEq_self (ci : Bool) (a : Char) : chEq ci a a = true := by
  cases ci <;> simp [chEq]

/-- A literal pattern matches at the start of itself followed by anything. -/
theorem startsWithCI_append (ci : Bool) (l r : List Char) :
    startsWithCI ci l (l ++ r) = true := by
  induction l with
  | nil => rfl
  | cons a t ih => simp [startsWithCI, chEq_self, ih]

/-- The at-sign never matches a space, in either comparison mode. -/
theorem chEq_at_space : chEq true '@' ' ' = false := by decide

/-- The space character is scanner whitespace. -/
theorem isPySpace_space : isPySpace ' ' = true := by decide

/-- C1: a command filter built with the default prefix set and the
default case-insensitive mode, evaluated on a message whose text (or
caption) is the prefix `/`, then a configured command name, then a space
and the argument string, returns true and sets `update.command` to the
command name followed by the tokens of the argument string — the tokens
the quoted-span/non-whitespace scanner produces, with escaped quotes
un-escaped. The general conjuncts quantify over command names free of
regex metacharacters (`isReMeta`), the domain on which the source's
unescaped interpolation of the name into its patterns is literal matching
(a name containing metacharacters is interpreted as regex syntax by the
source, whose behavior this embedding does not model). In particular
`/start` yields `["start"]` and `/start hello "foo bar" baz` yields
`["start", "hello", "foo bar", "baz"]`. -/
theorem command_default_parse_ok :
    (evalCommand (commandBuild ["start".data] (some ["/".data]) false) none
        ⟨some "/start".data, none, none⟩ =
      (true, ⟨some "/start".data, none, some ["start".data]⟩)) ∧
    (evalCommand (commandBuild ["start".data] (some ["/".data]) false) none
        ⟨some "/start hello \"foo bar\" baz".data, none, none⟩ =
      (true, ⟨some "/start hello \"foo bar\" baz".data, none,
        some ["start".data, "hello".data, "foo bar".data, "baz".data]⟩)) ∧
    (∀ (cmd args : List Char) (cm0 : Option (List (List Char))),
      cmd ≠ [] → (∀ ch ∈ cmd, isReMeta ch = false) →
      List.map Char.toLower cmd = cmd →
      evalCommand (commandBuild [cmd] (some [['/']]) false) none
          ⟨some ('/' :: (cmd ++ ' ' :: args)), none, cm0⟩ =
        (true, ⟨some ('/' :: (cmd ++ ' ' :: args)), none,
          some (cmd :: (scanTokens (subCmd true cmd [] (cmd ++ ' ' :: args))).map
            unescapeQuotes)⟩) ∧
      subCmd true cmd [] (cmd ++ ' ' :: args) = args) ∧
    (∀ (cmd args : List Char) (cm0 : Option (List (List Char))),
      cmd ≠ [] → (∀ ch ∈ cmd, isReMeta ch = false) →
      List.map Char.toLower cmd = cmd →
      evalCommand (commandBuild [cmd] (some [['/']]) false) none
          ⟨none, some ('/' :: (cmd ++ ' ' :: args)), cm0⟩ =
        (true, ⟨none, some ('/' :: (cmd ++ ' ' :: args)),
          some (cmd :: (scanTokens args).map unescapeQuotes)⟩)) := by
  have hsub : ∀ (cmd args : List Char), cmd ≠ [] →
      subCmd true cmd [] (cmd ++ ' ' :: args) = args := by
    intro cmd args hne
    obtain ⟨c0, cmd', rfl⟩ : ∃ c0 cmd2, cmd = c0 :: cmd2 := by
      cases cmd with
      | nil => exact absurd rfl hne
      | cons a l => exact ⟨a, l, rfl⟩
    simp [subCmd, subCmdAt, startsWithCI, chEq_self, startsWithCI_append,
      chEq_at_space, isPySpace_space, List.drop_left]
  have hmatch : ∀ (cmd args : List Char), cmd ≠ [] →
      matchCmd true cmd [] (cmd ++ ' ' :: args) = true := by
    intro cmd args hne
    obtain ⟨c0, cmd', rfl⟩ : ∃ c0 cmd2, cmd = c0 :: cmd2 := by
      cases cmd with
      | nil => exact absurd rfl hne
      | cons a l => exact ⟨a, l, rfl⟩
    simp [matchCmd, startsWithCI, chEq_self, startsWithCI_append,
      tailOkCI, isPySpace_space, List.drop_left]
  have hmain : ∀ (cmd args : List Char), cmd ≠ [] → List.map Char.toLower cmd = cmd →
      tryPfxs true [] [cmd] ('/' :: (cmd ++ ' ' :: args)) [['/']] =
        some (cmd :: (scanTokens (subCmd true cmd [] (cmd ++ ' ' :: args))).map
          unescapeQuotes) := by
    intro cmd args hne hlow
    simp [tryPfxs, tryCmds, startsWithCI, chEq_self, hmatch cmd args hne]
  refine ⟨by decide, by decide, ?_, ?_⟩
  · intro cmd args cm0 hne hmeta hlow
    have hbuild : commandBuild [cmd] (some [['/']]) false =
        ⟨[cmd], [['/']], false⟩ := by
      simp [commandBuild, hlow]
    refine ⟨?_, hsub cmd args hne⟩
    rw [hbuild]
    simp only [evalCommand, truthyStr, Option.getD]
    simp [hmain cmd args hne hlow]
  · intro cmd args cm0 hne hmeta hlow
    have hbuild : commandBuild [cmd] (some [['/']]) false =
        ⟨[cmd], [['/']], false⟩ := by
      simp [commandBuild, hlow]
    rw [hbuild]
    simp only [evalCommand, truthyStr, Option.getD]
    simp [hmain cmd args hne hlow, hsub cmd args hne]

/-- Witness for `command_default_parse_ok`: the general conjunct applied
to the command `go` and the argument string `a "b c"` — evaluation
returns true and the annotation is `go` followed by the scanner's
unescaped tokens of the argument string. -/
theorem command_default_parse_ok_inst :
    evalCommand (commandBuild ["go".data] (some [['/']]) false) none
        ⟨some ('/' :: ("go".data ++ ' ' :: "a \"b c\"".data)), none, none⟩ =
      (true, ⟨some ('/' :: ("go".data ++ ' ' :: "a \"b c\"".data)), none,
        some ("go".data :: (scanTokens (subCmd true "go".data []
          ("go".data ++ ' ' :: "a \"b c\"".data))).map unescapeQuotes)⟩) :=
  (command_default_parse_ok.2.2.1 "go".data "a \"b c\"".data none
    (by decide) (by decide) (by decide)).1
